import Mathlib

/-!
Verification development for the Bronze-to-Silver ETL engine
(src/infrastructure/lambda/bronze_to_silver/handler.py).

The Python code is shallowly embedded: cell values become the inductive
type `Value`, a pandas DataFrame becomes a column-name list plus a list of
rows, fallible Python code returns `Except PyErr`, and Python floats are
modelled as rationals.  Every definition is translated from the source
file; line numbers in comments refer to handler.py.
-/

set_option maxRecDepth 10000

/-- Cell values occurring in raw TMDB records and in DataFrame cells:
JSON null, integers, floats (modelled as rationals), strings, and the
two list shapes the schema uses (integer lists for genre_ids, string
lists for origin_country). -/
inductive Value where
  | vnull
  | vint (n : ℤ)
  | vfloat (q : ℚ)
  | vstr (s : String)
  | vintlist (l : List ℤ)
  | vstrlist (l : List String)
deriving DecidableEq

/-- A raw element of the Bronze `results` array: either a JSON map
(field list) or some non-map value (on which `.get` raises). -/
inductive RawShow where
  | notMap (v : Value)
  | map (fields : List (String × Value))
deriving DecidableEq

/-- The Python exceptions the handler can raise. -/
inductive PyErr where
  | attributeError
  | valueError
  | typeError
  | keyError
deriving DecidableEq

instance {ε α : Type} [DecidableEq ε] [DecidableEq α] : DecidableEq (Except ε α) := fun x y =>
  match x, y with
  | .ok a, .ok b =>
    if h : a = b then .isTrue (by rw [h]) else .isFalse (fun hh => by cases hh; exact h rfl)
  | .error a, .error b =>
    if h : a = b then .isTrue (by rw [h]) else .isFalse (fun hh => by cases hh; exact h rfl)
  | .ok _, .error _ => .isFalse (fun hh => by cases hh)
  | .error _, .ok _ => .isFalse (fun hh => by cases hh)

/-- First-match association-list lookup, i.e. Python `dict` access for
our flattened dict model. -/
def lookupField : List (String × Value) → String → Option Value
  | [], _ => none
  | p :: ps, k => if p.1 == k then some p.2 else lookupField ps k

/-- Python `d.get(k)` on a raw record: raises AttributeError on a non-map
(handler.py uses `.get` on every field, line 133). -/
def pyGet (r : RawShow) (k : String) : Except PyErr Value :=
  match r with
  | .notMap _ => .error .attributeError
  | .map fs => .ok ((lookupField fs k).getD .vnull)

/-- Python truthiness for our value universe (used by `or` on line 134
and by `if not shows` on line 87). -/
def pyTruthy : Value → Bool
  | .vnull => false
  | .vint n => n ≠ 0
  | .vfloat q => q ≠ 0
  | .vstr s => s ≠ ""
  | .vintlist l => !l.isEmpty
  | .vstrlist l => !l.isEmpty

/-- Python `a or b`: `a` if truthy, else `b`. -/
def pyOr (a b : Value) : Value := if pyTruthy a then a else b

/-- Decimal-string parsing accepted by Python `float()`:
optional sign, digits, optional fractional part. -/
def natOfDigits (l : List Char) : ℕ :=
  l.foldl (fun n c => 10 * n + (c.toNat - 48)) 0

def parseFloatQ (s : String) : Option ℚ :=
  let step : List Char → Option ℚ := fun l =>
    let intPart := l.takeWhile Char.isDigit
    let rest := l.drop intPart.length
    match rest with
    | [] => if intPart.isEmpty then none else some (natOfDigits intPart)
    | '.' :: frac =>
      if frac.all Char.isDigit && !(intPart.isEmpty && frac.isEmpty) then
        some ((natOfDigits intPart : ℚ) + (natOfDigits frac : ℚ) / (10 ^ frac.length : ℕ))
      else none
    | _ => none
  match s.data with
  | '-' :: t => (step t).map (fun q => -q)
  | '+' :: t => step t
  | l => step l

/-- Python `float(v)`: numbers convert, numeric strings parse,
non-numeric strings raise ValueError, None and lists raise TypeError. -/
def pyFloat (v : Value) : Except PyErr ℚ :=
  match v with
  | .vint n => .ok n
  | .vfloat q => .ok q
  | .vstr s =>
    match parseFloatQ s with
    | some q => .ok q
    | none => .error .valueError
  | .vnull => .error .typeError
  | .vintlist _ => .error .typeError
  | .vstrlist _ => .error .typeError

/-- Column order of the dict literal built by `normalize_show`
(handler.py lines 132-148); this is the column order of the DataFrame
built on line 104, before `enforce_schema` reorders it. -/
def NORM_COLS : List String :=
  ["show_id", "title", "original_title", "vote_average", "vote_count",
   "first_air_date", "genre_ids", "origin_country", "poster_path",
   "backdrop_path", "overview", "original_language", "popularity",
   "ingestion_date", "data_type"]

/-- Model of `normalize_show` (handler.py lines 130-148).  On a non-map record the
first `.get` raises AttributeError; on a map the only fallible step is
`float(raw_show.get('vote_average', 0.0))`.  `now` stands for
`datetime.now().isoformat()`.  Note that `popularity` (line 145) is
fetched with a default but NOT passed through `float()`, and `data_type`
(line 147) is set to None. -/
def normalize_show (now : String) (r : RawShow) : Except PyErr (List Value) :=
  match r with
  | .notMap _ => .error .attributeError
  | .map fs =>
    let get : String → Value := fun k => (lookupField fs k).getD .vnull
    let getDef : String → Value → Value := fun k d => (lookupField fs k).getD d
    match pyFloat (getDef "vote_average" (.vfloat 0)) with
    | .error e => .error e
    | .ok va =>
      .ok [ get "id",
            pyOr (get "name") (get "original_name"),
            get "original_name",
            .vfloat va,
            getDef "vote_count" (.vint 0),
            get "first_air_date",
            getDef "genre_ids" (.vintlist []),
            getDef "origin_country" (.vstrlist []),
            get "poster_path",
            get "backdrop_path",
            get "overview",
            get "original_language",
            getDef "popularity" (.vfloat 0),
            .vstr now,
            .vnull ]

/-- The normalization loop of `process_bronze_file` (handler.py lines
95-101).  On failure the except-branch logs
`f"Failed to normalize show {show.get('id')}"`: for a map record that
`.get` succeeds and the record is skipped, but for a non-map record the
`.get` inside the warning itself raises AttributeError, which escapes
the except-block and aborts the batch. -/
def normalizeRecords (now : String) : List RawShow → Except PyErr (List (List Value))
  | [] => .ok []
  | s :: rest =>
    match normalize_show now s with
    | .ok row => (normalizeRecords now rest).map (fun rs => row :: rs)
    | .error _ =>
      match s with
      | .map _ => normalizeRecords now rest
      | .notMap _ => .error .attributeError

/-- A pandas DataFrame, row-oriented: the column-name list plus the rows
(each row a list of cells positionally aligned with `cols`). -/
structure Df where
  cols : List String
  rows : List (List Value)
deriving DecidableEq

/-- Index of a column name, or `none` (a `df[col]` access with `none`
raises KeyError). -/
def colIdx : List String → String → Option ℕ
  | [], _ => none
  | c :: cs, name => if c == name then some 0 else (colIdx cs name).map (· + 1)

/-- Cell of row `r` in column `c` of `df` (null when out of range). -/
def cellV (df : Df) (c : String) (r : List Value) : Value :=
  match colIdx df.cols c with
  | some i => r.getD i .vnull
  | none => .vnull

/-- pandas `isna`: only null cells are missing in our value universe. -/
def isNA : Value → Bool
  | .vnull => true
  | _ => false

def isNum : Value → Bool
  | .vint _ => true
  | .vfloat _ => true
  | _ => false

/-- Comparison `v < 0` under pandas float64 semantics: NaN (here: null) compares
false, as does anything non-numeric. -/
def numLt0 : Value → Bool
  | .vint n => n < 0
  | .vfloat q => q < 0
  | _ => false

/-- Comparison `v >= 0` under pandas float64 semantics: NaN compares false. -/
def numGe0 : Value → Bool
  | .vint n => 0 ≤ n
  | .vfloat q => 0 ≤ q
  | _ => false

/-- Model of `df.drop_duplicates(subset=['show_id'], keep='first')` (line 175):
keep a row iff its key was not seen earlier. -/
def dedupFirst (key : List Value → Value) : List (List Value) → List Value → List (List Value)
  | [], _ => []
  | r :: rs, seen =>
    if seen.contains (key r) then dedupFirst key rs seen
    else r :: dedupFirst key rs (key r :: seen)

/-- Rows surviving the `show_id` notna filter (line 163). -/
def rowsSid (df : Df) : List (List Value) :=
  df.rows.filter (fun r => !isNA (cellV df "show_id" r))

/-- Rows additionally surviving the `title` notna filter (line 167). -/
def rowsTitle (df : Df) : List (List Value) :=
  (rowsSid df).filter (fun r => !isNA (cellV df "title" r))

/-- Rows additionally surviving `popularity >= 0` (line 171): the
"surviving-eligible" rows that enter deduplication. -/
def eligible (df : Df) : List (List Value) :=
  (rowsTitle df).filter (fun r => numGe0 (cellV df "popularity" r))

/-- Rows surviving the whole gate: deduplication by `show_id`, first
occurrence kept (line 175). -/
def gateRows (df : Df) : List (List Value) :=
  dedupFirst (fun r => cellV df "show_id" r) (eligible df) []

/-- Whether pandas inferred the `popularity` column as float64 at
DataFrame construction: every entry numeric or None, at least one
numeric.  In that mode None became NaN and comparisons are total
(NaN compares false); otherwise the column is object-dtype and a
comparison raises TypeError as soon as a non-numeric element remains. -/
def popFloatMode (df : Df) : Bool :=
  (df.rows.map (cellV df "popularity")).all (fun v => isNum v || isNA v) &&
  (df.rows.map (cellV df "popularity")).any isNum

/-- The quality-report counters (handler.py lines 153-182). -/
structure Checks where
  initial_count : ℕ
  missing_show_id : ℕ
  missing_title : ℕ
  invalid_popularity : ℕ
  duplicates : ℕ
  final_count : ℕ
  failed_count : ℤ
  pass_rate : ℚ
deriving DecidableEq

/-- The counters produced by a successful run of the gate on `df` with
the orchestrator-supplied `initial` count (lines 153-182). -/
def gateChecks (df : Df) (initial : ℕ) : Checks :=
  { initial_count := initial,
    missing_show_id := df.rows.countP (fun r => isNA (cellV df "show_id" r)),
    missing_title := (rowsSid df).countP (fun r => isNA (cellV df "title" r)),
    invalid_popularity := (rowsTitle df).countP (fun r => numLt0 (cellV df "popularity" r)),
    duplicates := (eligible df).length - (gateRows df).length,
    final_count := (gateRows df).length,
    failed_count := (initial : ℤ) - (gateRows df).length,
    pass_rate := if 0 < initial then ((gateRows df).length : ℚ) / initial else 0 }

/-- Model of `apply_data_quality_checks` (handler.py lines 151-189).  Accessing a
missing column raises KeyError (as happens when every record failed
normalization and the DataFrame is empty with no columns); comparing an
object-dtype popularity column that still contains a non-numeric element
raises TypeError.  Otherwise the four rules run in order and the cleaned
DataFrame plus counters are returned. -/
def apply_data_quality_checks (df : Df) (initial : ℕ) :
    Except PyErr (Df × Checks) :=
  if (colIdx df.cols "show_id").isSome && (colIdx df.cols "title").isSome &&
      (colIdx df.cols "popularity").isSome then
    if popFloatMode df || (rowsTitle df).all (fun r => isNum (cellV df "popularity" r)) then
      .ok (⟨df.cols, gateRows df⟩, gateChecks df initial)
    else .error .typeError
  else .error .keyError

/-- The `SILVER_SCHEMA` dict (handler.py lines 27-43): the 15 canonical columns,
in canonical order, with their pandas dtypes. -/
def SILVER_SCHEMA : List (String × String) :=
  [("show_id", "Int64"), ("title", "string"), ("original_title", "string"),
   ("popularity", "float64"), ("vote_average", "float64"), ("vote_count", "Int64"),
   ("first_air_date", "string"), ("genre_ids", "object"), ("origin_country", "object"),
   ("poster_path", "string"), ("backdrop_path", "string"), ("overview", "string"),
   ("original_language", "string"), ("ingestion_date", "string"), ("data_type", "string")]

def SILVER_COLS : List String := SILVER_SCHEMA.map (fun cd => cd.1)

/-- A column-oriented view of a DataFrame: (column name, cells) pairs.
`enforce_schema` is naturally columnar, so it is modelled on this view. -/
abbrev Table := List (String × List Value)

/-- Column lookup in a columnar table (pandas column names are unique;
first match). -/
def lookupCol (t : Table) (c : String) : Option (List Value) :=
  (t.find? (fun p => p.1 == c)).map (fun p => p.2)

/-- Row count `len(df)` of a columnar table: length of its first column. -/
def numRows (t : Table) : ℕ :=
  match t with
  | [] => 0
  | c :: _ => c.2.length

/-- One cell under `astype(dtype, errors='ignore')` (handler.py line
206): `some` is a successful cast, `none` a failed one.  Int64 accepts
integers, integral floats and null; float64 accepts numbers and null
(null is NaN, still missing); string accepts strings, integers and
null.  Dtypes outside the cast list on line 205 (i.e. `object`) are not
cast at all. -/
def castValue (dt : String) (v : Value) : Option Value :=
  if dt == "Int64" then
    match v with
    | .vnull => some .vnull
    | .vint n => some (.vint n)
    | .vfloat q => if q.den == 1 then some (.vint q.num) else none
    | _ => none
  else if dt == "float64" then
    match v with
    | .vnull => some .vnull
    | .vint n => some (.vfloat n)
    | .vfloat q => some (.vfloat q)
    | _ => none
  else if dt == "string" then
    match v with
    | .vnull => some .vnull
    | .vstr s => some (.vstr s)
    | .vint n => some (.vstr (toString n))
    | _ => none
  else some v

/-- A whole column under `astype(dtype, errors='ignore')`: if any cell
fails to cast the column is left unchanged (the lenient-coercion branch,
lines 203-208). -/
def castCol (dt : String) (vals : List Value) : List Value :=
  if vals.all (fun v => (castValue dt v).isSome) then
    vals.map (fun v => (castValue dt v).getD v)
  else vals

/-- Model of `enforce_schema` (handler.py lines 192-210): add missing columns
filled with None (lines 195-197), keep exactly the schema columns in
schema order dropping extras (line 200), then cast each column
best-effort (lines 203-208). -/
def enforce_schema (t : Table) : Table :=
  SILVER_SCHEMA.map (fun cd =>
    (cd.1, castCol cd.2 ((lookupCol t cd.1).getD (List.replicate (numRows t) Value.vnull))))

/-- Columnar view of a row-oriented DataFrame (model glue for the
hand-off from the quality gate to `enforce_schema`). -/
def toTable (df : Df) : Table :=
  df.cols.map (fun c => (c, df.rows.map (fun r => cellV df c r)))

/-- Word characters matched by `\w` in the category pattern.  Python 3
applies `\w` in a str pattern Unicode-aware, so it accepts more than
ASCII `[A-Za-z0-9_]`.  The model reproduces `\w` exactly on the Latin-1
repertoire (U+0000 to U+00FF): ASCII word characters plus the Latin-1
alphanumerics (feminine/masculine ordinals, superscripts, micro sign,
vulgar fractions, and the accented letters, e.g. `ñ`).  Keys containing
characters above U+00FF are outside the modelled domain. -/
def isWordChar (c : Char) : Bool :=
  c.isAlphanum || c == '_' || c.toNat == 0xAA ||
  (0xB2 ≤ c.toNat && c.toNat ≤ 0xB3) || c.toNat == 0xB5 ||
  (0xB9 ≤ c.toNat && c.toNat ≤ 0xBA) ||
  (0xBC ≤ c.toNat && c.toNat ≤ 0xBE) ||
  (0xC0 ≤ c.toNat && c.toNat ≤ 0xD6) ||
  (0xD8 ≤ c.toNat && c.toNat ≤ 0xF6) ||
  (0xF8 ≤ c.toNat && c.toNat ≤ 0xFF)

/-- The ASCII character class `[A-Za-z0-9_]` named by the claim; a
proper subset of what Python's `\w` matches. -/
def asciiWordChar (c : Char) : Bool :=
  ('A' ≤ c && c ≤ 'Z') || ('a' ≤ c && c ≤ 'z') ||
  ('0' ≤ c && c ≤ '9') || c == '_'

/-- Attempt of the pattern `dt=(\d{4}-\d{2}-\d{2})` at the head of the
character list (handler.py line 236). -/
def matchDtAt (l : List Char) : Option (List Char) :=
  match l with
  | 'd' :: 't' :: '=' :: a :: b :: c :: d :: '-' :: e :: f :: '-' :: g :: h :: _ =>
    if a.isDigit && b.isDigit && c.isDigit && d.isDigit &&
        e.isDigit && f.isDigit && g.isDigit && h.isDigit then
      some [a, b, c, d, '-', e, f, '-', g, h]
    else none
  | _ => none

/-- The `re.search` scan for the date pattern: first position, left to
right, where the pattern matches. -/
def findDt : List Char → Option (List Char)
  | [] => none
  | c :: rest =>
    match matchDtAt (c :: rest) with
    | some d => some d
    | none => findDt rest

/-- Model of `extract_partition_date` (handler.py lines 234-241); `today` stands
for `datetime.now().strftime('%Y-%m-%d')`. -/
def extract_partition_date (today : String) (key : String) : String :=
  match findDt key.data with
  | some d => String.mk d
  | none => today

/-- Attempt of the pattern `shows/(\w+)/` at the head of the character
list (handler.py line 246): the literal marker, then a non-empty run of
word characters, then a slash.  Backtracking cannot shorten the greedy
run because every proper prefix of the run is followed by a word
character, never by a slash. -/
def matchShowsAt (l : List Char) : Option (List Char) :=
  match l with
  | 's' :: 'h' :: 'o' :: 'w' :: 's' :: '/' :: rest =>
    if !(rest.takeWhile isWordChar).isEmpty &&
        ((rest.drop (rest.takeWhile isWordChar).length).head? == some '/') then
      some (rest.takeWhile isWordChar)
    else none
  | _ => none

/-- The `re.search` scan for the category pattern. -/
def findShowsCat : List Char → Option (List Char)
  | [] => none
  | c :: rest =>
    match matchShowsAt (c :: rest) with
    | some s => some s
    | none => findShowsCat rest

/-- Model of `extract_data_type` (handler.py lines 244-251). -/
def extract_data_type (key : String) : String :=
  match findShowsCat key.data with
  | some s => String.mk s
  | none => "unknown"

/-- The per-object summary built by `process_bronze_file` (handler.py
lines 123-127), extended with the modelled side effects: the Silver
object that would be written (`written`, line 118) and the quality
report handed to the metrics sink (`checks`, line 121).  The
short-circuit return on line 89 carries no key, no output and no
report. -/
structure ProcResult where
  records_processed : ℕ
  quality_pass_rate : ℚ
  silver_key : Option String
  written : Option Table
  checks : Option Checks
deriving DecidableEq

/-- The parsed Bronze JSON document: its `results` array may be absent
(`raw_data.get('results', [])`, handler.py line 86). -/
structure BronzeInput where
  results : Option (List RawShow)
deriving DecidableEq

/-- Model of `process_bronze_file` from the parsed document onward (handler.py
lines 86-127): empty-batch short-circuit (lines 87-89), normalization
loop (lines 95-101), DataFrame construction (line 104; an empty record
list gives a DataFrame with no columns), quality gate (line 107), schema
enforcement (line 110), partition resolution (lines 113-114), Silver key
and write (lines 117-118), metrics and summary (lines 121-127).
`now` and `today` stand for the wall-clock readings. -/
def process_bronze_file (now today key : String) (input : BronzeInput) :
    Except PyErr ProcResult :=
  if (input.results.getD []).isEmpty then
    .ok ⟨0, 0, none, none, none⟩
  else
    match normalizeRecords now (input.results.getD []) with
    | .error e => .error e
    | .ok rows =>
      match apply_data_quality_checks ⟨if rows.isEmpty then [] else NORM_COLS, rows⟩
          (input.results.getD []).length with
      | .error e => .error e
      | .ok (df2, checks) =>
        .ok ⟨numRows (enforce_schema (toTable df2)), checks.pass_rate,
             some ("silver/shows/" ++ extract_data_type key ++ "/dt=" ++
                   extract_partition_date today key ++ "/data.parquet"),
             some (enforce_schema (toTable df2)), some checks⟩

/-- Shape test for an extracted date token: `\d{4}-\d{2}-\d{2}`. -/
def dateShape (l : List Char) : Bool :=
  match l with
  | [a, b, c, d, '-', e, f, '-', g, h] =>
    a.isDigit && b.isDigit && c.isDigit && d.isDigit &&
    e.isDigit && f.isDigit && g.isDigit && h.isDigit
  | _ => false

/-- Literal-pattern test: does `pat` start the list `l`? -/
def startsWithL : List Char → List Char → Bool
  | [], _ => true
  | _ :: _, [] => false
  | p :: ps, c :: cs => p == c && startsWithL ps cs

/-- Number of positions of `l` at which `pat` occurs. -/
def occCount (pat l : List Char) : ℕ :=
  (List.range (l.length + 1)).countP (fun i => startsWithL pat (l.drop i))

def SHOWS_MARKER : List Char := ['s', 'h', 'o', 'w', 's', '/']

/-- The spec scenario batch: five raw records, one missing `show_id`,
one with `popularity = -1`, two sharing `show_id = 3`. -/
def c3raw : List RawShow :=
  [.map [("name", .vstr "A")],
   .map [("id", .vint 2), ("name", .vstr "B"), ("popularity", .vfloat (-1))],
   .map [("id", .vint 3), ("name", .vstr "C")],
   .map [("id", .vint 3), ("name", .vstr "C2")],
   .map [("id", .vint 5), ("name", .vstr "E")]]

/-- The scenario batch normalized, as the DataFrame handed to the gate. -/
def c3df : Df := ⟨NORM_COLS, (normalizeRecords "T" c3raw).toOption.getD []⟩

/-- A two-record DataFrame whose second record carries a null
popularity: in float64 mode that record is dropped by `popularity >= 0`
but never counted by `(popularity < 0).sum()`. -/
def c9df : Df :=
  ⟨["show_id", "title", "popularity"],
   [[.vint 1, .vstr "A", .vfloat 1], [.vint 2, .vstr "B", .vnull]]⟩

/-- A one-record DataFrame with numeric popularity, used as a witness
input for the gate counter identity. -/
def c9wdf : Df :=
  ⟨["show_id", "title", "popularity"], [[.vint 1, .vstr "A", .vfloat 2]]⟩

/-- A one-record input document, used as a witness input for the
quality-report metrics. -/
def c6input : BronzeInput := ⟨some [.map [("id", .vint 1), ("name", .vstr "A")]]⟩

/-- The processing result on `c6input` (total projection of the
successful run). -/
def c6res : ProcResult :=
  (process_bronze_file "T" "D" "k" c6input).toOption.getD ⟨0, 0, none, none, none⟩

/-- The quality report of that run. -/
def c6checks : Checks := c6res.checks.getD (gateChecks ⟨[], []⟩ 0)

/-- A witness input table for the Schema Enforcer: one extra column,
every canonical column missing. -/
def c4wt : Table := [("junk", [Value.vint 9])]

/-- Normalized form of the record `{"id": 7}` (defaults everywhere). -/
def c2wrow : List Value :=
  [.vint 7, .vnull, .vnull, .vfloat 0, .vint 0, .vnull, .vintlist [],
   .vstrlist [], .vnull, .vnull, .vnull, .vnull, .vfloat 0, .vstr "T", .vnull]

theorem filterNot_length_add_countP {α : Type} (p : α → Bool) (l : List α) :
    (l.filter (fun a => !(p a))).length + l.countP p = l.length := by
  induction l with
  | nil => simp
  | cons a t ih =>
    by_cases h : p a = true
    · simp [List.filter_cons, List.countP_cons, h]
      omega
    · simp [List.filter_cons, List.countP_cons, h]
      omega

theorem dedupFirst_length_le (key : List Value → Value) :
    ∀ (l : List (List Value)) (seen : List Value),
      (dedupFirst key l seen).length ≤ l.length := by
  intro l
  induction l with
  | nil => intro seen; simp [dedupFirst]
  | cons r rs ih =>
    intro seen
    simp only [dedupFirst]
    split
    · exact Nat.le_succ_of_le (ih _)
    · simpa using ih _

theorem dedupFirst_filter_key (key : List Value → Value) (k : Value) :
    ∀ (l : List (List Value)) (seen : List Value),
      (dedupFirst key l seen).filter (fun x => key x == k) =
        if k ∈ seen then [] else (l.filter (fun x => key x == k)).take 1 := by
  intro l
  induction l with
  | nil =>
    intro seen
    simp [dedupFirst]
  | cons r rs ih =>
    intro seen
    by_cases hks : key r ∈ seen
    · have hstep : dedupFirst key (r :: rs) seen = dedupFirst key rs seen := by
        simp [dedupFirst, hks]
      rw [hstep, ih seen]
      by_cases hrk : key r = k
      · subst hrk
        simp [hks]
      · have hb : (key r == k) = false := by simpa using hrk
        simp [List.filter_cons, hb]
    · have hstep : dedupFirst key (r :: rs) seen =
          r :: dedupFirst key rs (key r :: seen) := by
        simp [dedupFirst, hks]
      rw [hstep, List.filter_cons]
      by_cases hrk : key r = k
      · subst hrk
        rw [ih (key r :: seen)]
        simp [hks, List.filter_cons]
      · have hb : (key r == k) = false := by simpa using hrk
        have hkr : ¬(k = key r) := fun h => hrk h.symm
        rw [ih (key r :: seen)]
        simp [List.filter_cons, hb, hkr]

theorem normalizeRecords_length_le (now : String) :
    ∀ (l : List RawShow) (rows : List (List Value)),
      normalizeRecords now l = .ok rows → rows.length ≤ l.length := by
  intro l
  induction l with
  | nil =>
    intro rows h
    simp only [normalizeRecords] at h
    cases h
    simp
  | cons s rest ih =>
    intro rows h
    simp only [normalizeRecords] at h
    cases hn : normalize_show now s with
    | ok row =>
      rw [hn] at h
      cases hr : normalizeRecords now rest with
      | ok rs =>
        rw [hr] at h
        simp only [Except.map] at h
        cases h
        simpa using ih rs hr
      | error e =>
        rw [hr] at h
        simp only [Except.map] at h
        cases h
    | error e =>
      rw [hn] at h
      cases s with
      | map fs => exact Nat.le_succ_of_le (ih rows h)
      | notMap v => cases h

theorem gate_ok_inv {df : Df} {initial : ℕ} {out : Df} {ch : Checks}
    (h : apply_data_quality_checks df initial = .ok (out, ch)) :
    out = ⟨df.cols, gateRows df⟩ ∧ ch = gateChecks df initial := by
  unfold apply_data_quality_checks at h
  split at h
  · split at h
    · cases h
      exact ⟨rfl, rfl⟩
    · cases h
  · cases h

theorem numGe0_eq_not_numLt0 (v : Value) (h : isNum v = true) :
    numGe0 v = !numLt0 v := by
  cases v with
  | vint n =>
    simp only [numGe0, numLt0]
    by_cases h0 : (0 : ℤ) ≤ n
    · have h1 : ¬(n < 0) := not_lt.mpr h0
      simp [h0, h1]
    · have h1 : n < 0 := not_le.mp h0
      simp [h0, h1]
  | vfloat q =>
    simp only [numGe0, numLt0]
    by_cases h0 : (0 : ℚ) ≤ q
    · have h1 : ¬(q < 0) := not_lt.mpr h0
      simp [h0, h1]
    · have h1 : q < 0 := not_le.mp h0
      simp [h0, h1]
  | vnull => simp [isNum] at h
  | vstr s => simp [isNum] at h
  | vintlist l => simp [isNum] at h
  | vstrlist l => simp [isNum] at h

theorem gateRows_length_le (df : Df) : (gateRows df).length ≤ df.rows.length := by
  unfold gateRows eligible rowsTitle rowsSid
  refine le_trans (dedupFirst_length_le _ _ _) ?_
  refine le_trans (List.length_filter_le _ _) ?_
  exact le_trans (List.length_filter_le _ _) (List.length_filter_le _ _)

theorem process_ok_inv {now today key : String} {input : BronzeInput} {r : ProcResult}
    (h : process_bronze_file now today key input = .ok r) {ch : Checks}
    (hch : r.checks = some ch) :
    ∃ rows : List (List Value),
      normalizeRecords now (input.results.getD []) = .ok rows ∧
      rows.length ≤ (input.results.getD []).length ∧
      (input.results.getD []).length ≠ 0 ∧
      ch = gateChecks ⟨if rows.isEmpty then [] else NORM_COLS, rows⟩
            (input.results.getD []).length := by
  unfold process_bronze_file at h
  split at h
  · cases h
    cases hch
  · rename_i hemp
    split at h
    · cases h
    · rename_i rows hnr
      split at h
      · cases h
      · rename_i df2 checks hg
        cases h
        obtain ⟨-, hco⟩ := gate_ok_inv hg
        cases hch
        refine ⟨rows, hnr, normalizeRecords_length_le now _ rows hnr, ?_, hco⟩
        intro h0
        exact hemp (by simpa [List.isEmpty_iff, List.length_eq_zero] using h0)

theorem castValue_null (dt : String) : castValue dt .vnull = some .vnull := by
  unfold castValue
  split_ifs <;> rfl

theorem castValue_idem {dt : String} {v w : Value} (h : castValue dt v = some w) :
    castValue dt w = some w := by
  unfold castValue at h ⊢
  split_ifs at h ⊢ with h1 h2 h3
  · cases v with
    | vnull => simp only [] at h; cases h; rfl
    | vint n => simp only [] at h; cases h; rfl
    | vfloat q =>
      by_cases hd : q.den = 1
      · simp only [] at h
        rw [if_pos (show (q.den == 1) = true by simp [hd])] at h
        cases h
        rfl
      · simp only [] at h
        rw [if_neg (show ¬((q.den == 1) = true) by simp [hd])] at h
        cases h
    | vstr s => simp only [] at h; cases h
    | vintlist l => simp only [] at h; cases h
    | vstrlist l => simp only [] at h; cases h
  · cases v with
    | vnull => simp only [] at h; cases h; rfl
    | vint n => simp only [] at h; cases h; rfl
    | vfloat q => simp only [] at h; cases h; rfl
    | vstr s => simp only [] at h; cases h
    | vintlist l => simp only [] at h; cases h
    | vstrlist l => simp only [] at h; cases h
  · cases v with
    | vnull => simp only [] at h; cases h; rfl
    | vint n => simp only [] at h; cases h; rfl
    | vfloat q => simp only [] at h; cases h
    | vstr s => simp only [] at h; cases h; rfl
    | vintlist l => simp only [] at h; cases h
    | vstrlist l => simp only [] at h; cases h
  · cases h
    exact rfl

theorem castCol_idem (dt : String) (vals : List Value) :
    castCol dt (castCol dt vals) = castCol dt vals := by
  unfold castCol
  by_cases h : (vals.all fun v => (castValue dt v).isSome) = true
  · rw [if_pos h]
    have hall : ((vals.map fun v => (castValue dt v).getD v).all
        fun v => (castValue dt v).isSome) = true := by
      rw [List.all_eq_true] at h ⊢
      intro w hw
      obtain ⟨v, hv, rfl⟩ := List.mem_map.mp hw
      obtain ⟨u, hu⟩ := Option.isSome_iff_exists.mp (h v hv)
      rw [hu]
      simp [castValue_idem hu]
    rw [if_pos hall, List.map_map]
    refine List.map_congr_left ?_
    intro v hv
    obtain ⟨u, hu⟩ := Option.isSome_iff_exists.mp
      ((List.all_eq_true.mp h) v hv)
    simp [hu, castValue_idem hu]
  · rw [if_neg h, if_neg h]

theorem castCol_replicate_null (dt : String) (n : ℕ) :
    castCol dt (List.replicate n .vnull) = List.replicate n .vnull := by
  unfold castCol
  have hall : ((List.replicate n Value.vnull).all
      fun v => (castValue dt v).isSome) = true := by
    rw [List.all_eq_true]
    intro v hv
    rw [List.eq_of_mem_replicate hv, castValue_null]
    rfl
  rw [if_pos hall, List.map_replicate, castValue_null]
  rfl

theorem lookupCol_eq_none {t : Table} {c : String}
    (h : c ∉ t.map (fun p => p.1)) : lookupCol t c = none := by
  unfold lookupCol
  rw [List.find?_eq_none.mpr]
  · rfl
  · intro p hp hbeq
    exact h (List.mem_map.mpr ⟨p, hp, by simpa using hbeq⟩)

theorem find?_key_nodup {α : Type} {l : List (String × α)} {cd : String × α}
    (hnd : (l.map (fun p => p.1)).Nodup) (hmem : cd ∈ l) :
    l.find? (fun p => p.1 == cd.1) = some cd := by
  induction l with
  | nil => cases hmem
  | cons a t ih =>
    rcases List.mem_cons.mp hmem with rfl | htail
    · exact List.find?_cons_of_pos _ (by simp)
    · have hne : a.1 ≠ cd.1 := by
        intro he
        have : cd.1 ∈ t.map (fun p => p.1) := List.mem_map.mpr ⟨cd, htail, rfl⟩
        rw [List.map_cons, List.nodup_cons] at hnd
        exact hnd.1 (he ▸ this)
      rw [List.find?_cons_of_neg _ (by simpa using hne)]
      exact ih (by rw [List.map_cons, List.nodup_cons] at hnd; exact hnd.2) htail

theorem lookupCol_map_keyed {β : Type} (g : String × β → List Value)
    (l : List (String × β)) (c : String) :
    lookupCol (l.map (fun cd => (cd.1, g cd))) c =
      (l.find? (fun cd => cd.1 == c)).map (fun cd => g cd) := by
  unfold lookupCol
  rw [List.find?_map]
  have hc : ((fun p : String × List Value => p.1 == c) ∘ (fun cd => (cd.1, g cd))) =
      (fun cd : String × β => cd.1 == c) := rfl
  rw [hc]
  cases l.find? (fun cd => cd.1 == c) <;> rfl

theorem lookupCol_enforce (t : Table) {cd : String × String} (h : cd ∈ SILVER_SCHEMA) :
    lookupCol (enforce_schema t) cd.1 =
      some (castCol cd.2 ((lookupCol t cd.1).getD
        (List.replicate (numRows t) Value.vnull))) := by
  have hnd : (SILVER_SCHEMA.map (fun p => p.1)).Nodup := by decide
  unfold enforce_schema
  rw [lookupCol_map_keyed
    (fun cd2 => castCol cd2.2 ((lookupCol t cd2.1).getD
      (List.replicate (numRows t) Value.vnull))) SILVER_SCHEMA cd.1]
  rw [find?_key_nodup hnd h]
  rfl

theorem enforce_schema_idem (t : Table) :
    enforce_schema (enforce_schema t) = enforce_schema t := by
  conv_lhs => rw [enforce_schema]
  conv_rhs => rw [enforce_schema]
  refine List.map_congr_left ?_
  intro cd hcd
  rw [lookupCol_enforce t hcd]
  simp only [Option.getD_some]
  rw [castCol_idem]

theorem matchShowsAt_some {l s : List Char} (h : matchShowsAt l = some s) :
    ∃ rest, l = 's' :: 'h' :: 'o' :: 'w' :: 's' :: '/' :: rest ∧
      s = rest.takeWhile isWordChar ∧ s ≠ [] ∧
      (rest.drop s.length).head? = some '/' := by
  unfold matchShowsAt at h
  split at h
  · rename_i rest
    split at h
    · rename_i hc
      cases h
      rw [Bool.and_eq_true] at hc
      refine ⟨rest, rfl, rfl, ?_, ?_⟩
      · have := hc.1
        simp only [Bool.not_eq_true'] at this
        exact List.isEmpty_eq_false.mp this
      · simpa using hc.2
    · cases h
  · cases h

theorem findShowsCat_some : ∀ {l s : List Char}, findShowsCat l = some s →
    ∃ j, matchShowsAt (l.drop j) = some s := by
  intro l
  induction l with
  | nil =>
    intro s h
    simp [findShowsCat] at h
  | cons c rest ih =>
    intro s h
    unfold findShowsCat at h
    split at h
    · rename_i d heq
      cases h
      exact ⟨0, heq⟩
    · rename_i heq
      obtain ⟨j, hj⟩ := ih h
      exact ⟨j + 1, by simpa using hj⟩

theorem findShowsCat_word {l s : List Char} (h : findShowsCat l = some s) :
    s.all isWordChar = true ∧ s ≠ [] := by
  obtain ⟨j, hj⟩ := findShowsCat_some h
  obtain ⟨rest, -, hs, hne, -⟩ := matchShowsAt_some hj
  exact ⟨hs ▸ List.all_takeWhile, hne⟩

theorem matchDtAt_some {l d : List Char} (h : matchDtAt l = some d) :
    dateShape d = true := by
  unfold matchDtAt at h
  split at h
  · split at h
    · cases h
      rename_i hc
      simpa [dateShape] using hc
    · cases h
  · cases h

theorem findDt_some : ∀ {l d : List Char}, findDt l = some d → dateShape d = true := by
  intro l
  induction l with
  | nil =>
    intro d h
    simp [findDt] at h
  | cons c rest ih =>
    intro d h
    unfold findDt at h
    split at h
    · rename_i d2 heq
      cases h
      exact matchDtAt_some heq
    · exact ih h

theorem takeWhile_slash_eq : ∀ {rest : List Char},
    ((rest.drop (rest.takeWhile isWordChar).length).head? = some '/') →
    rest.takeWhile (fun c => c != '/') = rest.takeWhile isWordChar := by
  intro rest
  induction rest with
  | nil =>
    intro h
    simp at h
  | cons c cs ih =>
    intro h
    by_cases hw : isWordChar c = true
    · have hcne : (c != '/') = true := by
        by_cases hcs : c = '/'
        · rw [hcs] at hw
          exact absurd hw (by decide)
        · simpa using hcs
      rw [List.takeWhile_cons_of_pos hw] at h
      simp only [List.length_cons, List.drop_succ_cons] at h
      rw [@List.takeWhile_cons_of_pos Char (fun x => x != '/') c cs hcne,
        List.takeWhile_cons_of_pos hw, ih h]
    · rw [List.takeWhile_cons_of_neg hw] at h
      simp only [List.length_nil, List.drop_zero, List.head?_cons, Option.some.injEq] at h
      rw [List.takeWhile_cons_of_neg hw,
        @List.takeWhile_cons_of_neg Char (fun x => x != '/') c cs (by simp [h])]

theorem startsWithL_le_length : ∀ {pat l : List Char},
    startsWithL pat l = true → pat.length ≤ l.length := by
  intro pat
  induction pat with
  | nil =>
    intro l h
    simp
  | cons p ps ih =>
    intro l h
    cases l with
    | nil => simp [startsWithL] at h
    | cons c cs =>
      simp only [startsWithL, Bool.and_eq_true] at h
      simpa using ih h.2

theorem countP_one_unique {α : Type} {p : α → Bool} {l : List α}
    (hc : l.countP p = 1) {a b : α} (ha : a ∈ l) (hb : b ∈ l)
    (hpa : p a = true) (hpb : p b = true) : a = b := by
  have haf : a ∈ l.filter p := List.mem_filter.mpr ⟨ha, hpa⟩
  have hbf : b ∈ l.filter p := List.mem_filter.mpr ⟨hb, hpb⟩
  have hlen : (l.filter p).length = 1 := by
    rw [← List.countP_eq_length_filter]
    exact hc
  obtain ⟨x, hx⟩ := List.length_eq_one.mp hlen
  rw [hx] at haf hbf
  simp only [List.mem_singleton] at haf hbf
  exact haf.trans hbf.symm

/-- Claim C1 (code bug evidence).  On a well-formed single-record batch
under a key with category `trending`, the pipeline succeeds and writes a
Silver object — but the written record's `data_type` field is null:
`normalize_show` sets it to None and `process_bronze_file` never stamps
the Partition Resolver's category onto the records (the category is used
only in the output path), contradicting the claim that every Silver
record carries a non-null `data_type`. -/
theorem c1_data_type_null_in_silver :
    (process_bronze_file "2024-03-01T00:00:00" "2024-03-01"
        "bronze/shows/trending/dt=2024-03-01/x.json"
        ⟨some [.map [("id", .vint 1), ("name", .vstr "A")]]⟩).map
      (fun r => (r.records_processed, r.silver_key,
                 r.written.map (fun t => lookupCol t "data_type"))) =
    .ok (1, some "silver/shows/trending/dt=2024-03-01/data.parquet",
         some (some [Value.vnull])) := by
  decide

/-- Claim C2 (counterexample).  `popularity` is NOT coerced to float: a
record with `popularity = "5"` normalizes successfully with the string
kept as-is (cell 12 of the normalized row).  And a non-numeric
`vote_average` does not default to 0.0: it makes normalization fail with
a ValueError. -/
theorem c2_counterexample :
    (normalize_show "T" (.map [("id", .vint 1), ("name", .vstr "A"),
        ("popularity", .vstr "5")])).map (fun row => row.getD 12 .vnull) =
      .ok (.vstr "5") ∧
    normalize_show "T" (.map [("id", .vint 1), ("name", .vstr "A"),
        ("vote_average", .vstr "n_a")]) = .error .valueError := by
  decide

/-- Claim C2 (amended).  For every raw map record: `vote_average` is
coerced through `float()` — on success the normalized cell is always a
float, defaulting to 0.0 when the raw field is absent, and normalization
fails (rather than defaulting) when `float()` fails; `popularity`
defaults to 0.0 when absent but is otherwise passed through uncoerced. -/
theorem c2_normalizer_coercion :
    (∀ (now : String) (fs : List (String × Value)) (row : List Value),
        normalize_show now (.map fs) = .ok row →
        ((∃ q : ℚ, row.getD 3 .vnull = .vfloat q) ∧
         (lookupField fs "vote_average" = none → row.getD 3 .vnull = .vfloat 0) ∧
         (lookupField fs "popularity" = none → row.getD 12 .vnull = .vfloat 0) ∧
         (∀ v : Value, lookupField fs "popularity" = some v →
            row.getD 12 .vnull = v))) ∧
    (∀ (now : String) (fs : List (String × Value)) (v : Value) (e : PyErr),
        lookupField fs "vote_average" = some v → pyFloat v = .error e →
        normalize_show now (.map fs) = .error e) := by
  constructor
  · intro now fs row h
    simp only [normalize_show] at h
    split at h
    · cases h
    · rename_i va hva
      cases h
      refine ⟨⟨va, rfl⟩, ?_, ?_, ?_⟩
      · intro hnone
        rw [hnone] at hva
        simp only [Option.getD_none] at hva
        simp only [pyFloat] at hva
        cases hva
        rfl
      · intro hnone
        simp [hnone]
      · intro v hv
        simp [hv]
  · intro now fs v e hv hf
    simp only [normalize_show]
    rw [hv]
    simp only [Option.getD_some]
    rw [hf]

/-- Witness for C2's amended theorem at the concrete record `{"id": 7}`
(both defaults fire) and at a record whose `vote_average` is the
non-numeric string `"zz"` (normalization fails with that error). -/
theorem c2_normalizer_coercion_witness :
    (normalize_show "T" (.map [("id", .vint 7)]) = .ok c2wrow ∧
     ((∃ q : ℚ, c2wrow.getD 3 .vnull = .vfloat q) ∧
      (lookupField [("id", .vint 7)] "vote_average" = none →
        c2wrow.getD 3 .vnull = .vfloat 0) ∧
      (lookupField [("id", .vint 7)] "popularity" = none →
        c2wrow.getD 12 .vnull = .vfloat 0) ∧
      (∀ v : Value, lookupField [("id", .vint 7)] "popularity" = some v →
        c2wrow.getD 12 .vnull = v))) ∧
    normalize_show "T" (.map [("vote_average", .vstr "zz")]) = .error .valueError :=
  ⟨⟨by decide, c2_normalizer_coercion.1 "T" [("id", .vint 7)] c2wrow (by decide)⟩,
   c2_normalizer_coercion.2 "T" [("vote_average", .vstr "zz")] (.vstr "zz")
     .valueError (by decide) (by decide)⟩

/-- Claim C7 (code bug evidence).  A batch containing a non-map raw
record aborts with AttributeError: the except-branch logging
`show.get('id')` re-raises on the non-map record, so the batch never
continues past it — even though a map record that fails normalization
(second conjunct: bad `vote_average`) is indeed dropped with the batch
continuing. -/
theorem c7_nonmap_record_aborts_batch :
    process_bronze_file "T" "D" "k"
        ⟨some [.notMap (.vint 42), .map [("id", .vint 1), ("name", .vstr "A")]]⟩ =
      .error .attributeError ∧
    (process_bronze_file "T" "D" "k"
        ⟨some [.map [("id", .vint 1), ("vote_average", .vstr "bad")],
               .map [("id", .vint 2), ("name", .vstr "B")]]⟩).map
      (fun r => r.records_processed) = .ok 1 := by
  decide

/-- Claim C8.  When the parsed document's `results` array is absent or
empty, processing short-circuits: the result reports zero records and a
0.0 pass rate, no Silver object is written, and no error is raised. -/
theorem c8_empty_batch_short_circuit :
    ∀ (now today key : String) (input : BronzeInput),
      (input.results = none ∨ input.results = some []) →
      process_bronze_file now today key input = .ok ⟨0, 0, none, none, none⟩ := by
  intro now today key input h
  rcases h with h | h <;>
  · unfold process_bronze_file
    rw [h]
    rfl

/-- Witness for C8 at the concrete input with no `results` field. -/
theorem c8_empty_batch_witness :
    (⟨none⟩ : BronzeInput).results = none ∧
    process_bronze_file "T" "D" "k" ⟨none⟩ = .ok ⟨0, 0, none, none, none⟩ :=
  ⟨rfl, c8_empty_batch_short_circuit "T" "D" "k" ⟨none⟩ (Or.inl rfl)⟩

/-- Claim C3.  The gate's four rules in their fixed order on the spec's
five-record scenario yield final_count 2, missing_show_id 1,
missing_title 0, invalid_popularity 1, duplicates 1 and pass_rate 0.4;
and for every successful gate run and every show_id value, the gate
keeps exactly the first surviving-eligible row with that show_id, in
input order. -/
theorem c3_quality_gate_rules :
    ((apply_data_quality_checks c3df 5).map (fun p =>
        (p.2.final_count, p.2.missing_show_id, p.2.missing_title,
         p.2.invalid_popularity, p.2.duplicates)) = .ok (2, 1, 0, 1, 1)) ∧
    ((apply_data_quality_checks c3df 5).map (fun p => p.2.pass_rate) = .ok 0.4) ∧
    (∀ (df : Df) (initial : ℕ) (out : Df) (ch : Checks),
      apply_data_quality_checks df initial = .ok (out, ch) →
      ∀ k : Value,
        out.rows.filter (fun r => cellV df "show_id" r == k) =
          ((eligible df).filter (fun r => cellV df "show_id" r == k)).take 1) := by
  refine ⟨by decide, ?_, ?_⟩
  · have hgate : apply_data_quality_checks c3df 5 =
        .ok (⟨c3df.cols, gateRows c3df⟩, gateChecks c3df 5) := rfl
    rw [hgate]
    simp only [Except.map]
    have hlen : (gateRows c3df).length = 2 := by decide
    simp only [gateChecks, hlen]
    norm_num
  · intro df initial out ch h k
    obtain ⟨ho, -⟩ := gate_ok_inv h
    subst ho
    have hd := dedupFirst_filter_key (fun r => cellV df "show_id" r) k (eligible df) []
    simpa [gateRows] using hd

/-- Witness for C3's universal part: the concrete scenario gate run, and
stability at the duplicated show_id 3. -/
theorem c3_quality_gate_rules_witness :
    apply_data_quality_checks c3df 5 =
      .ok (⟨c3df.cols, gateRows c3df⟩, gateChecks c3df 5) ∧
    (⟨c3df.cols, gateRows c3df⟩ : Df).rows.filter
        (fun r => cellV c3df "show_id" r == Value.vint 3) =
      ((eligible c3df).filter
        (fun r => cellV c3df "show_id" r == Value.vint 3)).take 1 :=
  ⟨rfl, c3_quality_gate_rules.2.2 c3df 5 _ _ rfl (.vint 3)⟩

/-- Claim C9 (counterexample).  A two-record gate input whose second
record has null popularity: the run succeeds, but the four removal
counters plus final_count sum to 1, not 2 — the null-popularity row is
dropped by `popularity >= 0` without being counted by
`(popularity < 0).sum()`. -/
theorem c9_counterexample :
    (apply_data_quality_checks c9df 2).map (fun p =>
        p.2.missing_show_id + p.2.missing_title + p.2.invalid_popularity +
        p.2.duplicates + p.2.final_count) = .ok 1 ∧
    c9df.rows.length = 2 := by
  decide

/-- Claim C9 (amended).  For every successful gate run in which every
record's popularity is numeric (non-null), the four removal counters
plus final_count sum to the number of records passed in, independently
of the initial_count argument. -/
theorem c9_gate_counter_sum :
    ∀ (df : Df) (initial : ℕ) (out : Df) (ch : Checks),
      apply_data_quality_checks df initial = .ok (out, ch) →
      (∀ r ∈ df.rows, isNum (cellV df "popularity" r) = true) →
      ch.missing_show_id + ch.missing_title + ch.invalid_popularity +
        ch.duplicates + ch.final_count = df.rows.length := by
  intro df initial out ch h hnum
  obtain ⟨-, hch⟩ := gate_ok_inv h
  subst hch
  simp only [gateChecks]
  have h1 : (rowsSid df).length +
      df.rows.countP (fun r => isNA (cellV df "show_id" r)) = df.rows.length :=
    filterNot_length_add_countP _ _
  have h2 : (rowsTitle df).length +
      (rowsSid df).countP (fun r => isNA (cellV df "title" r)) = (rowsSid df).length :=
    filterNot_length_add_countP _ _
  have hsub : ∀ r, r ∈ rowsTitle df → r ∈ df.rows := by
    intro r hr
    unfold rowsTitle rowsSid at hr
    exact (List.mem_filter.mp (List.mem_filter.mp hr).1).1
  have h3 : (eligible df).length +
      (rowsTitle df).countP (fun r => numLt0 (cellV df "popularity" r)) =
      (rowsTitle df).length := by
    have hcong : (rowsTitle df).filter (fun r => numGe0 (cellV df "popularity" r)) =
        (rowsTitle df).filter (fun r => !(numLt0 (cellV df "popularity" r))) := by
      refine List.filter_congr ?_
      intro r hr
      exact numGe0_eq_not_numLt0 _ (hnum r (hsub r hr))
    have hbase := filterNot_length_add_countP
      (fun r => numLt0 (cellV df "popularity" r)) (rowsTitle df)
    calc (eligible df).length +
          (rowsTitle df).countP (fun r => numLt0 (cellV df "popularity" r))
        = ((rowsTitle df).filter
            (fun r => !(numLt0 (cellV df "popularity" r)))).length +
          (rowsTitle df).countP (fun r => numLt0 (cellV df "popularity" r)) := by
          rw [show eligible df = (rowsTitle df).filter
            (fun r => !(numLt0 (cellV df "popularity" r))) from hcong]
      _ = (rowsTitle df).length := hbase
  have h4 : (gateRows df).length ≤ (eligible df).length := by
    unfold gateRows
    exact dedupFirst_length_le _ _ _
  omega

/-- Witness for C9's amended theorem: a one-record all-numeric gate run
where the counters sum to the single input record. -/
theorem c9_gate_counter_sum_witness :
    apply_data_quality_checks c9wdf 1 =
      .ok (⟨c9wdf.cols, gateRows c9wdf⟩, gateChecks c9wdf 1) ∧
    (gateChecks c9wdf 1).missing_show_id + (gateChecks c9wdf 1).missing_title +
      (gateChecks c9wdf 1).invalid_popularity + (gateChecks c9wdf 1).duplicates +
      (gateChecks c9wdf 1).final_count = c9wdf.rows.length :=
  ⟨rfl, c9_gate_counter_sum c9wdf 1 _ _ rfl (by decide)⟩

/-- Claim C6.  For every successful run that produced a quality report,
the report's initial_count is the pre-normalization count of raw
records, failed_count = initial_count - final_count, pass_rate is
final_count / initial_count (0.0 when initial_count is 0), and
pass_rate lies in [0, 1]. -/
theorem c6_quality_report_metrics :
    ∀ (now today key : String) (input : BronzeInput) (r : ProcResult),
      process_bronze_file now today key input = .ok r →
      ∀ ch : Checks, r.checks = some ch →
        ch.initial_count = (input.results.getD []).length ∧
        ch.failed_count = (ch.initial_count : ℤ) - (ch.final_count : ℤ) ∧
        ch.pass_rate = (if ch.initial_count = 0 then 0 else
          (ch.final_count : ℚ) / (ch.initial_count : ℚ)) ∧
        0 ≤ ch.pass_rate ∧ ch.pass_rate ≤ 1 := by
  intro now today key input r h ch hch
  obtain ⟨rows, hnr, hlen, hne, hcheq⟩ := process_ok_inv h hch
  subst hcheq
  have hfin : (gateRows ⟨if rows.isEmpty then [] else NORM_COLS, rows⟩).length ≤
      rows.length := gateRows_length_le _
  have hfin2 : (gateRows ⟨if rows.isEmpty then [] else NORM_COLS, rows⟩).length ≤
      (input.results.getD []).length := le_trans hfin hlen
  refine ⟨rfl, rfl, ?_, ?_, ?_⟩
  · simp only [gateChecks]
    rcases Nat.eq_zero_or_pos (input.results.getD []).length with h0 | h0
    · exact absurd h0 hne
    · rw [if_pos h0, if_neg (Nat.pos_iff_ne_zero.mp h0)]
  · simp only [gateChecks]
    split
    · positivity
    · exact le_refl 0
  · simp only [gateChecks]
    split
    · rename_i hpos
      rw [div_le_one (by exact_mod_cast hpos)]
      exact_mod_cast hfin2
    · norm_num

/-- Witness for C6: the concrete one-record run and its report. -/
theorem c6_quality_report_metrics_witness :
    process_bronze_file "T" "D" "k" c6input = .ok c6res ∧
    c6res.checks = some c6checks ∧
    (c6checks.initial_count = (c6input.results.getD []).length ∧
     c6checks.failed_count = (c6checks.initial_count : ℤ) - (c6checks.final_count : ℤ) ∧
     c6checks.pass_rate = (if c6checks.initial_count = 0 then 0 else
       (c6checks.final_count : ℚ) / (c6checks.initial_count : ℚ)) ∧
     0 ≤ c6checks.pass_rate ∧ c6checks.pass_rate ≤ 1) :=
  ⟨rfl, rfl, c6_quality_report_metrics "T" "D" "k" c6input c6res rfl c6checks rfl⟩

/-- Claim C4.  For any input table the Schema Enforcer's output has
exactly the 15 canonical columns in canonical order; a canonical column
absent from the input comes out filled with nulls; extra columns are
dropped (the output's column list is exactly the canonical one); and
the enforcer is idempotent. -/
theorem c4_schema_enforcer :
    ∀ t : Table,
      ((enforce_schema t).map (fun p => p.1) = SILVER_COLS ∧
       SILVER_COLS.length = 15) ∧
      (∀ p ∈ enforce_schema t, p.1 ∉ t.map (fun q => q.1) →
        p.2 = List.replicate (numRows t) Value.vnull) ∧
      enforce_schema (enforce_schema t) = enforce_schema t := by
  intro t
  refine ⟨⟨?_, by decide⟩, ?_, enforce_schema_idem t⟩
  · unfold enforce_schema SILVER_COLS
    rw [List.map_map]
    rfl
  · intro p hp hnot
    unfold enforce_schema at hp
    obtain ⟨cd, hcd, rfl⟩ := List.mem_map.mp hp
    have hnone : lookupCol t cd.1 = none := lookupCol_eq_none (by simpa using hnot)
    simp only [hnone, Option.getD_none]
    exact castCol_replicate_null _ _

/-- Witness for C4 on a table with one extra column and no canonical
columns: the `show_id` output column is a single null. -/
theorem c4_schema_enforcer_witness :
    ((enforce_schema c4wt).map (fun p => p.1) = SILVER_COLS ∧
     SILVER_COLS.length = 15) ∧
    (("show_id", [Value.vnull]) ∈ enforce_schema c4wt ∧
     ("show_id" : String) ∉ c4wt.map (fun q => q.1) ∧
     ([Value.vnull] : List Value) = List.replicate (numRows c4wt) Value.vnull) ∧
    enforce_schema (enforce_schema c4wt) = enforce_schema c4wt :=
  ⟨(c4_schema_enforcer c4wt).1,
   ⟨by decide, by decide,
    (c4_schema_enforcer c4wt).2.1 ("show_id", [Value.vnull]) (by decide) (by decide)⟩,
   (c4_schema_enforcer c4wt).2.2⟩

/-- Claim C5.  For any key the Partition Resolver always produces a
(category, date) pair: the category defaults to "unknown" when the
pattern is absent and is otherwise a non-empty word-character run; the
date defaults to `today` when the `dt=` token is absent and otherwise
has the YYYY-MM-DD shape; on the spec's scenario key the pair is
("trending", "2024-03-01"). -/
theorem c5_partition_resolver :
    ∀ (key today : String),
      (findShowsCat key.data = none → extract_data_type key = "unknown") ∧
      (extract_data_type key = "unknown" ∨
        ((extract_data_type key).data.all isWordChar = true ∧
         (extract_data_type key).data ≠ [])) ∧
      (findDt key.data = none → extract_partition_date today key = today) ∧
      (extract_partition_date today key = today ∨
        dateShape (extract_partition_date today key).data = true) ∧
      extract_data_type ".../shows/trending/dt=2024-03-01/x.json" = "trending" ∧
      extract_partition_date today ".../shows/trending/dt=2024-03-01/x.json" =
        "2024-03-01" := by
  intro key today
  refine ⟨?_, ?_, ?_, ?_, by decide, ?_⟩
  · intro h
    unfold extract_data_type
    rw [h]
  · cases hf : findShowsCat key.data with
    | none =>
      left
      unfold extract_data_type
      rw [hf]
    | some s =>
      right
      obtain ⟨hall, hne⟩ := findShowsCat_word hf
      unfold extract_data_type
      rw [hf]
      exact ⟨hall, hne⟩
  · intro h
    unfold extract_partition_date
    rw [h]
  · cases hf : findDt key.data with
    | none =>
      left
      unfold extract_partition_date
      rw [hf]
    | some d =>
      right
      unfold extract_partition_date
      rw [hf]
      exact findDt_some hf
  · unfold extract_partition_date
    rw [show findDt (".../shows/trending/dt=2024-03-01/x.json" : String).data =
        some ['2', '0', '2', '4', '-', '0', '3', '-', '0', '1'] from by decide]

/-- Witness for C5's defaulting implications at a key with neither
token. -/
theorem c5_partition_resolver_witness :
    findShowsCat ("nokey" : String).data = none ∧
    extract_data_type "nokey" = "unknown" ∧
    findDt ("nokey" : String).data = none ∧
    extract_partition_date "TODAY" "nokey" = "TODAY" :=
  ⟨by decide, (c5_partition_resolver "nokey" "TODAY").1 (by decide), by decide,
   (c5_partition_resolver "nokey" "TODAY").2.2.1 (by decide)⟩

/-- Claim C10 (counterexample).  The key
`bronze/shows/niño/dt=2024-01-01/x.json` has exactly one `shows/`
marker, and the segment `niño` that follows it contains `ñ`, a
character outside `[A-Za-z0-9_]` — yet the resolver returns "niño",
not "unknown": Python's `\w` in a str pattern is Unicode-aware and
matches `ñ`, so the claim's ASCII reading of the word class is false
of the program. -/
theorem c10_counterexample :
    occCount SHOWS_MARKER ("bronze/shows/niño/dt=2024-01-01/x.json" :
      String).data = 1 ∧
    startsWithL SHOWS_MARKER (("bronze/shows/niño/dt=2024-01-01/x.json" :
      String).data.drop 7) = true ∧
    ((("bronze/shows/niño/dt=2024-01-01/x.json" :
      String).data.drop (7 + 6)).takeWhile
        (fun c => c != '/')).all asciiWordChar = false ∧
    extract_data_type "bronze/shows/niño/dt=2024-01-01/x.json" = "niño" ∧
    extract_data_type "bronze/shows/niño/dt=2024-01-01/x.json" ≠ "unknown" := by
  decide

/-- Claim C10 (amended).  For keys in the Latin-1 repertoire, on which
the model of Python's Unicode-aware `\w` is exact: if the key contains
exactly one occurrence of the `shows/` marker and the path segment
following it (up to the next slash or the end of the key) contains a
character that `\w` does not match, then category extraction fails and
the resolver returns the sentinel "unknown" — the pattern only accepts
a non-empty run of `\w` word characters terminated by a slash.  The
`\w` class extends `[A-Za-z0-9_]` with the non-ASCII word characters,
so a hyphen still forces "unknown" while a segment such as `niño` is
accepted and returned. -/
theorem c10_nonword_category_unknown :
    ∀ (key : String) (i : ℕ),
      key.data.all (fun c => c.toNat ≤ 0xFF) = true →
      occCount SHOWS_MARKER key.data = 1 →
      startsWithL SHOWS_MARKER (key.data.drop i) = true →
      ((key.data.drop (i + 6)).takeWhile (fun c => c != '/')).all isWordChar = false →
      extract_data_type key = "unknown" := by
  intro key i hlatin hocc hstart hall
  unfold extract_data_type
  cases hf : findShowsCat key.data with
  | none => rfl
  | some s =>
    exfalso
    obtain ⟨j, hj⟩ := findShowsCat_some hf
    obtain ⟨rest, hdrop, hs, -, hhead⟩ := matchShowsAt_some hj
    have hstartj : startsWithL SHOWS_MARKER (key.data.drop j) = true := by
      rw [hdrop]
      rfl
    have hilen : i < key.data.length + 1 := by
      have h6 := startsWithL_le_length hstart
      have hd : (key.data.drop i).length = key.data.length - i := List.length_drop i _
      simp only [SHOWS_MARKER, List.length_cons, List.length_nil] at h6
      omega
    have hjlen : j < key.data.length + 1 := by
      have h6 := startsWithL_le_length hstartj
      have hd : (key.data.drop j).length = key.data.length - j := List.length_drop j _
      simp only [SHOWS_MARKER, List.length_cons, List.length_nil] at h6
      omega
    have hij : i = j := by
      unfold occCount at hocc
      exact countP_one_unique hocc (List.mem_range.mpr hilen)
        (List.mem_range.mpr hjlen) hstart hstartj
    subst hij
    have hdrop6 : key.data.drop (i + 6) = rest := by
      rw [← List.drop_drop, hdrop]
      rfl
    rw [hdrop6] at hall
    rw [hs] at hhead
    rw [takeWhile_slash_eq hhead] at hall
    simp only [List.all_takeWhile] at hall
    cases hall

/-- Witness for C10's amended theorem at the all-Latin-1 key whose
category segment `airing-today` carries a hyphen (not matched by `\w`):
the resolver yields "unknown". -/
theorem c10_nonword_category_witness :
    ("bronze/shows/airing-today/dt=2024-01-01/x.json" :
      String).data.all (fun c => c.toNat ≤ 0xFF) = true ∧
    occCount SHOWS_MARKER ("bronze/shows/airing-today/dt=2024-01-01/x.json" :
      String).data = 1 ∧
    startsWithL SHOWS_MARKER (("bronze/shows/airing-today/dt=2024-01-01/x.json" :
      String).data.drop 7) = true ∧
    ((("bronze/shows/airing-today/dt=2024-01-01/x.json" :
      String).data.drop (7 + 6)).takeWhile
        (fun c => c != '/')).all isWordChar = false ∧
    extract_data_type "bronze/shows/airing-today/dt=2024-01-01/x.json" = "unknown" :=
  ⟨by decide, by decide, by decide, by decide,
   c10_nonword_category_unknown "bronze/shows/airing-today/dt=2024-01-01/x.json" 7
     (by decide) (by decide) (by decide) (by decide)⟩
